import Mathlib

/-!
Verification of the resilient batch-ingestion pipeline of the
neo4j-exploration repository.

The development shallowly embeds the parts of the code that the claims
concern:

* `CSVPreprocessor` (client/src/csv_preprocessor.py): `sanitize_identifier`,
  `clean_field`, `process_row`, and the row loop of `preprocess_csv`.
  Python strings are modelled as Lean `String`/`List Char`, with character
  classifications (`str.strip`, `str.isdigit`, the printable-ASCII regex)
  modelled at the code-point level with ASCII semantics; Python also accepts
  a handful of non-ASCII whitespace and digit code points, which no claim
  exercises.  Numeric conversion (`str(float(v))`, `str(int(float(v)))`) is
  modelled as exact canonical decimal rendering, which agrees with CPython
  for every value whose shortest float representation is that plain decimal
  (CPython switches to scientific notation outside 1e-4..1e16 and rounds to
  53-bit precision; it also overflows to infinity beyond about 1e308).  The
  theorems below either do not depend on the rendered digits or stay far
  inside the exact range.
* `Neo4jConnector.load_citations` and `main` (client/src/client.py): the
  single-submission behaviour, the post-load count query, and the fixed
  stage dispatch order, instrumented with an explicit trace so the absence
  of retries, backoff and reconnection is observable.
* The Cypher write semantics the loaders submit: `CREATE` (citations) as
  unconditional node creation and `MERGE`-by-key with `SET`
  (`create_knowledge_graph` in test.py) as insert-or-update.
* The consistency checker exists only in the specification, not in the
  repository; it is modelled from the specification text and marked so.
-/

namespace NeoExploration

/-! ## Python string primitives (ASCII model) -/

/-- Whitespace characters removed by the Python `str.strip()` default
(ASCII subset). -/
def pyWhitespace (c : Char) : Bool :=
  decide (c = ' ' ∨ c = '\t' ∨ c = '\n' ∨ c = '\r' ∨ c = '\x0b' ∨ c = '\x0c')

/-- Characters kept by the `invalid_chars` regex of csv_preprocessor.py,
which deletes everything outside the printable ASCII range x20-x7E. -/
def isPrintableAscii (c : Char) : Bool :=
  decide (32 ≤ c.toNat ∧ c.toNat ≤ 126)

/-- ASCII decimal digit, the per-character content of `str.isdigit`. -/
def isAsciiDigit (c : Char) : Bool :=
  decide (48 ≤ c.toNat ∧ c.toNat ≤ 57)

/-- ASCII letter, the content of `str.isalpha` on the ASCII range. -/
def pyIsAlphaAscii (c : Char) : Bool :=
  decide ((65 ≤ c.toNat ∧ c.toNat ≤ 90) ∨ (97 ≤ c.toNat ∧ c.toNat ≤ 122))

/-- Character class `[a-zA-Z0-9_]` of the identifier regex. -/
def isWordChar (c : Char) : Bool :=
  pyIsAlphaAscii c || isAsciiDigit c || c == '_'

/-- Python `str.strip()`: drop whitespace from both ends. -/
def stripChars (l : List Char) : List Char :=
  List.rdropWhile pyWhitespace (l.dropWhile pyWhitespace)

/-- A string with no leading and no trailing whitespace (the default
values feed in a non-whitespace character, so the empty string counts). -/
def noWsEnds (l : List Char) : Bool :=
  !pyWhitespace (l.headD 'x') && !pyWhitespace (l.getLastD 'x')

/-! ## Decimal rendering (model of CPython number-to-string) -/

/-- Decimal digit character for a digit value (values above nine cannot be
produced by `n % 10`). -/
def pyDigitChar : Nat → Char
  | 0 => '0' | 1 => '1' | 2 => '2' | 3 => '3' | 4 => '4'
  | 5 => '5' | 6 => '6' | 7 => '7' | 8 => '8' | _ => '9'

/-- Fuel-driven decimal rendering of a natural number, most significant
digit first.  The fuel is always sufficient when called with `n + 1`. -/
def natToDigitsAux : Nat → Nat → List Char → List Char
  | 0, _, acc => acc
  | fuel + 1, n, acc =>
    let d := pyDigitChar (n % 10)
    if n < 10 then d :: acc else natToDigitsAux fuel (n / 10) (d :: acc)

/-- Decimal digits of a natural number, the model of Python `str(int)` on
non-negative values. -/
def natToDigits (n : Nat) : List Char :=
  natToDigitsAux (n + 1) n []

/-- Value of a list of ASCII digits, the model of Python integer parsing. -/
def digitsToNat (l : List Char) : Nat :=
  l.foldl (fun n c => n * 10 + (c.toNat - 48)) 0

/-! ## CSVPreprocessor.clean_field -/

/-- The test `value.replace('.', '').replace('-', '').isdigit()` of
clean_field: after deleting every dot and dash a non-empty all-digit
string remains. -/
def numericCheck (l : List Char) : Bool :=
  let r := l.filter (fun c => !(c == '.' || c == '-'))
  !r.isEmpty && r.all isAsciiDigit

/-- Whether CPython `float(value)` succeeds on a string drawn from digits,
dots and dashes: at most one dash and only in front, at most one dot, at
least one digit.  (Strings such as `1.2.3` or `1-2` pass `numericCheck`
but raise `ValueError` here.) -/
def floatParseOk (l : List Char) : Bool :=
  let body := if l.headD ' ' = '-' then l.tail else l
  body.all (fun c => isAsciiDigit c || c == '.') &&
    decide (body.count '.' ≤ 1) && body.any isAsciiDigit

/-- Model of `str(float(value))` (line 64 of csv_preprocessor.py) for a
string that passed `floatParseOk` and contains a dot: sign, integer part
without leading zeros, fractional part without trailing zeros, a lone
zero when the fractional part is empty. -/
def renderFloatChars (l : List Char) : List Char :=
  let neg := l.headD ' ' = '-'
  let body := if neg then l.tail else l
  let ip := body.takeWhile (fun c => !(c == '.'))
  let fp := (body.dropWhile (fun c => !(c == '.'))).tail
  let fpTrim := List.rdropWhile (fun c => c == '0') fp
  (if neg then ['-'] else []) ++ natToDigits (digitsToNat ip) ++
    ['.'] ++ (if fpTrim.isEmpty then ['0'] else fpTrim)

/-- Model of `str(int(float(value)))` (line 65 of csv_preprocessor.py) for
a dotless string that passed `floatParseOk`. -/
def renderIntChars (l : List Char) : List Char :=
  let neg := l.headD ' ' = '-'
  let body := if neg then l.tail else l
  let n := digitsToNat body
  (if neg ∧ n ≠ 0 then ['-'] else []) ++ natToDigits n

/-- The `value.replace('\\', '\\\\')` step: double every backslash. -/
def escapeBackslashes (l : List Char) : List Char :=
  (l.map (fun c => if c == '\\' then ['\\', '\\'] else [c])).flatten

/-- The `value.replace('"', '\\"')` step: put a backslash before every
double quote. -/
def escapeQuotes (l : List Char) : List Char :=
  (l.map (fun c => if c == '"' then ['\\', '"'] else [c])).flatten

/-- The non-numeric arm of clean_field: escape backslashes, escape quotes,
then delete the remaining non-printable characters. -/
def cleanStringBranch (l : List Char) : List Char :=
  (escapeQuotes (escapeBackslashes l)).filter isPrintableAscii

/-- Body of the `try` block of clean_field on the stripped, non-empty
value.  `Except.error` marks exactly the raising executions (a numeric
looking value that CPython `float` rejects). -/
def cleanFieldCore (value : List Char) : Except Unit (List Char) :=
  if numericCheck value then
    if floatParseOk value then
      if value.contains '.' then Except.ok (renderFloatChars value)
      else Except.ok (renderIntChars value)
    else Except.error ()
  else Except.ok (cleanStringBranch value)

/-- clean_field of csv_preprocessor.py on a string field: strip, return
empty for empty, run the try body, and on an exception fall back to the
original raw field (`return str(field)` in the handler). -/
def clean_field (field : String) : String :=
  let value := stripChars field.data
  if value.isEmpty then ""
  else
    match cleanFieldCore value with
    | Except.ok v => String.mk v
    | Except.error _ => field

/-! ## CSVPreprocessor.process_row and the preprocess_csv row loop -/

/-- process_row of csv_preprocessor.py: clean every field, then pad with
empty strings or truncate to the expected column count. -/
def process_row (row : List String) (expected_columns : Nat) : List String :=
  let cleaned := row.map clean_field
  if cleaned.length < expected_columns then
    cleaned ++ List.replicate (expected_columns - cleaned.length) ""
  else if expected_columns < cleaned.length then
    cleaned.take expected_columns
  else cleaned

/-- The row loop of preprocess_csv (lines 146-154): rows whose fields are
all empty are skipped (`if not any(row): continue`, where a Python string
is truthy exactly when non-empty); every other row is processed and
written out. -/
def preprocess_rows (rows : List (List String)) (expected_columns : Nat) :
    List (List String) :=
  (rows.filter (fun row => row.any (fun f => !(f == "")))).map
    (fun row => process_row row expected_columns)

/-! ## CSVPreprocessor.sanitize_identifier -/

/-- sanitize_identifier of csv_preprocessor.py: delete non-printable
characters, replace every character outside `[a-zA-Z0-9_]` with an
underscore, prepend `n` when the first character is not a letter, and
truncate to the Neo4j identifier length limit. -/
def sanitize_identifier (s : String) : String :=
  if s.isEmpty then ""
  else
    let v1 := s.data.filter isPrintableAscii
    let v2 := v1.map (fun c => if isWordChar c then c else '_')
    let v3 := match v2 with
      | [] => []
      | c :: rest => if pyIsAlphaAscii c then c :: rest else 'n' :: c :: rest
    String.mk (v3.take 16383)

/-! ## Neo4jConnector.load_citations (client/src/client.py, lines 105-127)

The method opens one session, submits the whole apoc.periodic.iterate call
once with `session.run`, then runs the count query and logs the result.
There is no retry loop, no backoff sleep, no driver recreation and no
comparison of the count against a tally; a failing submission raises out of
the method (main catches it, logs, and skips every remaining stage).  The
embedding instruments the call with an explicit trace so these absences are
observable facts about the code. -/

/-- Outcome the target store gives the single batch submission. -/
inductive SubmitOutcome where
  | ok
  | transient
deriving DecidableEq

/-- Error carried out of the loader when the submission raised. -/
inductive StoreErr where
  | transient
deriving DecidableEq

/-- The target store as load_citations observes it: the outcome of the one
submission it performs, and the node count its verification query returns. -/
structure Store where
  outcome : SubmitOutcome
  citationCount : Nat
deriving DecidableEq

/-- Observable trace of one load_citations call: how many submissions were
made, how often a per-batch retry counter was incremented, which backoff
delays were slept, how often the connection was recreated, and the result
(the logged count, or the propagated exception). -/
structure LoadTrace where
  submissions : Nat
  retries : Nat
  backoffWaits : List Nat
  reconnects : Nat
  result : Except StoreErr Nat

/-- load_citations: one `session.run` of the batched query; on success the
count query result is logged, on failure the exception propagates.  No
branch retries, sleeps or reconnects. -/
def load_citations (st : Store) : LoadTrace :=
  match st.outcome with
  | SubmitOutcome.ok => ⟨1, 0, [], 0, Except.ok st.citationCount⟩
  | SubmitOutcome.transient => ⟨1, 0, [], 0, Except.error StoreErr.transient⟩

/-- Whether the job ended in failure (the only failing exit of
load_citations is the propagated submission exception). -/
def jobFailed (t : LoadTrace) : Bool :=
  match t.result with
  | Except.ok _ => false
  | Except.error _ => true

/-! ## Cypher write semantics submitted by the loaders -/

/-- One citation row as the `CREATE (c:Citation {...})` query binds it. -/
structure Citation where
  pmid : String
  issn : String
  dp : String
  edat : String
  pyear : String
deriving DecidableEq

/-- The `CREATE` clause of load_citations: a node is created for the row
unconditionally, whether or not an equal node exists. -/
def createCitationNode (store : List Citation) (c : Citation) : List Citation :=
  store ++ [c]

/-- One batch submitted through the citation loader: every row runs the
`CREATE` clause. -/
def load_citations_batch (store : List Citation) (batch : List Citation) :
    List Citation :=
  batch.foldl createCitationNode store

/-- One entity row of create_knowledge_graph (test.py): the MERGE key `id`
and the properties the subsequent SET writes. -/
structure KGEntity where
  id : String
  name : String
  etype : String
  frequency : String
deriving DecidableEq

/-- The `MERGE (e:Entity {id: $id}) SET e.name = ..., e.type = ...,
e.frequency = ...` statement of create_knowledge_graph: insert the node
when no node carries the key, otherwise update the matched node in place. -/
def mergeEntity (store : List KGEntity) (e : KGEntity) : List KGEntity :=
  if e.id ∈ store.map KGEntity.id then
    store.map (fun x => if x.id = e.id then ⟨x.id, e.name, e.etype, e.frequency⟩ else x)
  else store ++ [e]

/-- The entity loop of create_knowledge_graph: run the MERGE-with-SET
statement for every entity of the batch, in order. -/
def create_knowledge_graph (store : List KGEntity) (entities : List KGEntity) :
    List KGEntity :=
  entities.foldl mergeEntity store

/-! ## Pipeline orchestration (main of client/src/client.py) -/

/-- The stage-selection flags of parse_args. -/
structure Args where
  constraints : Bool
  citations : Bool
  sentences : Bool
  entities : Bool
  predications : Bool
  relationships : Bool
  all : Bool
deriving DecidableEq

/-- The six load stages main can dispatch. -/
inductive Stage where
  | constraints
  | citations
  | sentences
  | entities
  | predications
  | relationships
deriving DecidableEq

/-- `run_all` of main: the `--all` flag, or no stage flag given. -/
def run_all (a : Args) : Bool :=
  a.all || !(a.constraints || a.citations || a.sentences || a.entities ||
    a.predications || a.relationships)

/-- The flag guarding a stage in main. -/
def stageFlag (a : Args) : Stage → Bool
  | Stage.constraints => a.constraints
  | Stage.citations => a.citations
  | Stage.sentences => a.sentences
  | Stage.entities => a.entities
  | Stage.predications => a.predications
  | Stage.relationships => a.relationships

/-- Position of a stage in the fixed dispatch order of main. -/
def stageIndex : Stage → Nat
  | Stage.constraints => 0
  | Stage.citations => 1
  | Stage.sentences => 2
  | Stage.entities => 3
  | Stage.predications => 4
  | Stage.relationships => 5

/-- Executable check that a dispatch sequence is strictly increasing in
the fixed stage order. -/
def stagesInOrder : List Stage → Bool
  | [] => true
  | [_] => true
  | s :: t :: r => decide (stageIndex s < stageIndex t) && stagesInOrder (t :: r)

/-- The sequence of stages main dispatches, in the order its body runs
them: each stage is guarded by `run_all or flag`, and the single driving
thread finishes one stage before the next `if` is reached.  (An exception
truncates this sequence; it never reorders it.) -/
def main_trace (a : Args) : List Stage :=
  (if run_all a || a.constraints then [Stage.constraints] else []) ++
  (if run_all a || a.citations then [Stage.citations] else []) ++
  (if run_all a || a.sentences then [Stage.sentences] else []) ++
  (if run_all a || a.entities then [Stage.entities] else []) ++
  (if run_all a || a.predications then [Stage.predications] else []) ++
  (if run_all a || a.relationships then [Stage.relationships] else [])

/-! ## Consistency checker

Modelled from the spec: the repository contains no consistency checker;
sections 4.2 and 8 of the specification define `checkConsistency` over
declared file specs, building one identifier set per file from its key
column (skipping rows without that column) and reporting, per dependent
pair, the identifiers of the dependent file missing from the related file;
the report is advisory and never blocks the load. -/

/-- Modelled from the spec: the `IdentifierSet` of one file, built from the
declared key column in one pass, skipping malformed (too short) rows. -/
def identifierSet (rows : List (List String)) (key : Nat) : Finset String :=
  (rows.filterMap (fun r => r.get? key)).toFinset

/-- Modelled from the spec: `missing = currentIdentifiers −
relatedIdentifiers` for one dependent pair of files. -/
def missingIdentifiers (rowsA rowsB : List (List String)) (ka kb : Nat) :
    Finset String :=
  identifierSet rowsA ka \ identifierSet rowsB kb

/-- Modelled from the spec: `checkConsistency` over declared file specs
`(fileId, keyColumn, dependsOn)`, reporting the missing set for every
declared dependent pair. -/
def checkConsistency (specs : List (Nat × Nat × List Nat))
    (rowsOf : Nat → List (List String)) :
    List ((Nat × Nat) × Finset String) :=
  let keyOf := fun fid =>
    ((specs.find? (fun t => t.1 == fid)).map (fun t => t.2.1)).getD 0
  (specs.map (fun t =>
    t.2.2.map (fun d =>
      ((t.1, d), missingIdentifiers (rowsOf t.1) (rowsOf d) t.2.1 (keyOf d))))).flatten

/-- Modelled from the spec: the consistency report is advisory, so no
report value blocks the load step. -/
def consistencyBlocksLoad (_report : List ((Nat × Nat) × Finset String)) : Bool :=
  false

/-! ## Lemmas about process_row and the row loop -/

/-- process_row in closed form: clean the fields, extend with the padding
block, truncate to the expected width. -/
theorem process_row_take_form (row : List String) (exp : Nat) :
    process_row row exp =
      (row.map clean_field ++ List.replicate (exp - row.length) "").take exp := by
  simp only [process_row]
  split
  case isTrue h =>
    simp only [List.length_map] at h ⊢
    rw [List.take_of_length_le]
    rw [List.length_append, List.length_map, List.length_replicate]
    omega
  case isFalse h =>
    split
    case isTrue h2 =>
      simp only [List.length_map] at h h2
      rw [Nat.sub_eq_zero_of_le (Nat.le_of_lt h2), List.replicate_zero, List.append_nil]
    case isFalse h2 =>
      simp only [List.length_map] at h h2
      have heq : row.length = exp := by omega
      rw [heq, Nat.sub_self, List.replicate_zero, List.append_nil,
        List.take_of_length_le (by rw [List.length_map, heq])]

/-- Every processed row has exactly the expected number of fields. -/
theorem process_row_length (row : List String) (exp : Nat) :
    (process_row row exp).length = exp := by
  rw [process_row_take_form, List.length_take, List.length_append,
    List.length_map, List.length_replicate, inf_eq_min]
  omega

/-- Claim C1: for every raw input row of any length and every expected
column count, process_row returns exactly expectedColumnCount fields,
padding short rows with empty strings and truncating extra fields, and
the preprocess_csv row loop skips a row exactly when every field is empty,
so an all-empty row is never written to the output. -/
theorem sanitize_row_width_and_skip (row : List String)
    (rest rows : List (List String)) (exp : Nat) :
    (process_row row exp).length = exp ∧
    process_row row exp =
      (row.map clean_field ++ List.replicate (exp - row.length) "").take exp ∧
    preprocess_rows (row :: rest) exp =
      (if row.any (fun f => !(f == "")) then [process_row row exp] else []) ++
        preprocess_rows rest exp ∧
    (preprocess_rows rows exp).all (fun out => out.length == exp) = true := by
  refine ⟨process_row_length row exp, process_row_take_form row exp, ?_, ?_⟩
  · unfold preprocess_rows
    rw [List.filter_cons]
    by_cases h : row.any (fun f => !(f == "")) = true
    · simp [h]
    · simp [h]
  · rw [List.all_eq_true]
    intro out hout
    unfold preprocess_rows at hout
    rcases List.mem_map.mp hout with ⟨r, -, rfl⟩
    simp [process_row_length]

/-- Claim C6: the specification scenario row, evaluated: stripping the
padded numeral, keeping the empty field, escaping the quote with a
backslash, canonicalising the decimal, and padding to five columns. -/
theorem sanitize_scenario_row :
    process_row ["  42 ", "", "foo\"bar", "3.0"] 5 =
      ["42", "", "foo\\\"bar", "3.0", ""] := by decide

/-- Claim C8, counterexample: the field ` 1.2.3 ` passes the numeric test
but fails float conversion; clean_field catches the error and keeps the
raw value, so the processed row is the raw field plus padding, not the
all-empty row of the expected width the claim describes. -/
theorem sanitize_error_row_not_emptied :
    process_row [" 1.2.3 "] 2 = [" 1.2.3 ", ""] ∧
    process_row [" 1.2.3 "] 2 ≠ ["", ""] := by decide

/-- Claim C8, amended: sanitization never raises (the field-level error is
caught inside clean_field); the erroring field keeps its original raw
value in place, and the row is still padded and truncated to the expected
width.  The all-empty fallback row of process_row is not what a
field-level error produces. -/
theorem sanitize_error_recovery (s : String) (rest : List String) (exp : Nat)
    (herr : (cleanFieldCore (stripChars s.data)).isOk = false)
    (hexp : 0 < exp) :
    clean_field s = s ∧
    (process_row (s :: rest) exp).headD "" = s ∧
    (process_row (s :: rest) exp).length = exp := by
  have hne : (stripChars s.data).isEmpty = false := by
    rcases h : (stripChars s.data).isEmpty
    · rfl
    · rw [List.isEmpty_iff] at h
      rw [h] at herr
      exact absurd herr (by decide)
  have hcf : clean_field s = s := by
    rcases hcv : cleanFieldCore (stripChars s.data) with u | v
    · simp [clean_field, hne, hcv]
    · rw [hcv] at herr
      exact absurd herr (by simp [Except.isOk, Except.toBool])
  refine ⟨hcf, ?_, process_row_length _ _⟩
  rcases exp with _ | k
  · exact absurd hexp (lt_irrefl 0)
  · rw [process_row_take_form]
    simp [List.take_succ_cons, hcf]

/-- Claim C8, witness: the amended statement at the concrete erroring
field ` 1.2.3 ` with expected width two. -/
theorem sanitize_error_recovery_witness :
    (cleanFieldCore (stripChars (" 1.2.3 ").data)).isOk = false ∧ 0 < 2 ∧
    (clean_field " 1.2.3 " = " 1.2.3 " ∧
      (process_row [" 1.2.3 "] 2).headD "" = " 1.2.3 " ∧
      (process_row [" 1.2.3 "] 2).length = 2) :=
  ⟨by decide, by decide, sanitize_error_recovery " 1.2.3 " [] 2 (by decide) (by decide)⟩

/-! ## Lemmas about the loader trace -/

/-- Claim C3, counterexample: on a store whose submission fails with a
transient error, load_citations performs exactly one submission, never
increments a retry counter, sleeps no backoff delay, recreates no
connection, and propagates the error — refuting the claimed
retry-with-backoff-and-reconnect loop at this input. -/
theorem load_citations_no_retry_on_transient :
    (load_citations ⟨SubmitOutcome.transient, 0⟩).retries = 0 ∧
    (load_citations ⟨SubmitOutcome.transient, 0⟩).submissions = 1 ∧
    (load_citations ⟨SubmitOutcome.transient, 0⟩).backoffWaits = [] ∧
    (load_citations ⟨SubmitOutcome.transient, 0⟩).reconnects = 0 ∧
    (load_citations ⟨SubmitOutcome.transient, 0⟩).result =
      Except.error StoreErr.transient :=
  ⟨rfl, rfl, rfl, rfl, rfl⟩

/-- Claim C3, amended: load_citations submits its batch exactly once for
every store behaviour; it has no retry counter, no backoff, and no
connection recreation, and a transient submission failure propagates to
the caller (main logs it and skips the remaining stages). -/
theorem load_citations_single_submission (st : Store) :
    (load_citations st).submissions = 1 ∧
    (load_citations st).retries = 0 ∧
    (load_citations st).backoffWaits = [] ∧
    (load_citations st).reconnects = 0 ∧
    (load_citations st).result = (match st.outcome with
      | SubmitOutcome.ok => Except.ok st.citationCount
      | SubmitOutcome.transient => Except.error StoreErr.transient) := by
  obtain ⟨o, n⟩ := st
  cases o <;> exact ⟨rfl, rfl, rfl, rfl, rfl⟩

/-- Claim C5, counterexample: a store that accepts the submission but
reports a count of zero (while the file contributed, say, a thousand
rows, a discrepancy beyond any threshold): load_citations still ends the
job successfully, logging the count — no comparison against a tally and
no fatal termination exists. -/
theorem load_citations_no_verification_failure :
    jobFailed (load_citations ⟨SubmitOutcome.ok, 0⟩) = false ∧
    (load_citations ⟨SubmitOutcome.ok, 0⟩).result = Except.ok 0 :=
  ⟨rfl, rfl⟩

/-- Claim C5, amended: after the submission, load_citations runs the
verification count query and logs the result; the count never influences
the job outcome — a successful submission is a successful job for every
reported count. -/
theorem load_citations_count_is_informational (o : SubmitOutcome) (n m : Nat) :
    jobFailed (load_citations ⟨o, n⟩) = jobFailed (load_citations ⟨o, m⟩) ∧
    jobFailed (load_citations ⟨SubmitOutcome.ok, n⟩) = false ∧
    (load_citations ⟨SubmitOutcome.ok, n⟩).result = Except.ok n := by
  cases o <;> exact ⟨rfl, rfl, rfl⟩

/-! ## Lemmas about the write semantics -/

/-- Claim C4, counterexample: the citation loader writes with `CREATE`,
so submitting the same one-row batch twice leaves two nodes where one
submission leaves one — the batch write is not idempotent. -/
theorem citation_create_not_idempotent :
    (load_citations_batch
        (load_citations_batch [] [⟨"0001", "", "", "", ""⟩])
        [⟨"0001", "", "", "", ""⟩]).length = 2 ∧
    (load_citations_batch [] [⟨"0001", "", "", "", ""⟩]).length = 1 :=
  ⟨rfl, rfl⟩

/-- create_knowledge_graph on the empty batch. -/
theorem ckg_nil (store : List KGEntity) :
    create_knowledge_graph store [] = store := rfl

/-- create_knowledge_graph peels one entity off the batch. -/
theorem ckg_cons (store : List KGEntity) (b : KGEntity) (t : List KGEntity) :
    create_knowledge_graph store (b :: t) =
      create_knowledge_graph (mergeEntity store b) t := rfl

/-- Merging an entity whose key is already present only updates the
matched node, leaving the key list unchanged. -/
theorem mergeEntity_map_id_of_mem (store : List KGEntity) (e : KGEntity)
    (h : e.id ∈ store.map KGEntity.id) :
    (mergeEntity store e).map KGEntity.id = store.map KGEntity.id := by
  unfold mergeEntity
  rw [if_pos h, List.map_map]
  apply List.map_congr_left
  intro x _
  by_cases hid : x.id = e.id <;> simp [Function.comp, hid]

/-- Merging an entity whose key is already present does not change the
node count. -/
theorem mergeEntity_length_of_mem (store : List KGEntity) (e : KGEntity)
    (h : e.id ∈ store.map KGEntity.id) :
    (mergeEntity store e).length = store.length := by
  unfold mergeEntity
  rw [if_pos h]
  exact List.length_map store _

/-- After a merge the merged key is present. -/
theorem mergeEntity_id_self (store : List KGEntity) (e : KGEntity) :
    e.id ∈ (mergeEntity store e).map KGEntity.id := by
  by_cases h : e.id ∈ store.map KGEntity.id
  · rw [mergeEntity_map_id_of_mem store e h]; exact h
  · unfold mergeEntity
    rw [if_neg h, List.map_append]
    simp

/-- A merge never removes a key. -/
theorem mergeEntity_id_mono (store : List KGEntity) (e : KGEntity) {a : String}
    (ha : a ∈ store.map KGEntity.id) :
    a ∈ (mergeEntity store e).map KGEntity.id := by
  by_cases h : e.id ∈ store.map KGEntity.id
  · rw [mergeEntity_map_id_of_mem store e h]; exact ha
  · unfold mergeEntity
    rw [if_neg h, List.map_append]
    exact List.mem_append_left _ ha

/-- A batch load never removes a key. -/
theorem ckg_id_mono (batch : List KGEntity) :
    ∀ (store : List KGEntity) {a : String}, a ∈ store.map KGEntity.id →
      a ∈ (create_knowledge_graph store batch).map KGEntity.id := by
  induction batch with
  | nil => intro store a ha; exact ha
  | cons b t ih =>
    intro store a ha
    rw [ckg_cons]
    exact ih _ (mergeEntity_id_mono store b ha)

/-- After a batch load every key of the batch is present in the store. -/
theorem ckg_mem_ids (batch : List KGEntity) :
    ∀ (store : List KGEntity), ∀ e ∈ batch,
      e.id ∈ (create_knowledge_graph store batch).map KGEntity.id := by
  induction batch with
  | nil => intro store e he; exact absurd he (List.not_mem_nil e)
  | cons b t ih =>
    intro store e he
    rw [ckg_cons]
    rcases List.mem_cons.mp he with rfl | ht
    · exact ckg_id_mono t _ (mergeEntity_id_self store e)
    · exact ih _ e ht

/-- Loading a batch whose keys are all already present updates in place:
the key list and the node count are unchanged. -/
theorem ckg_preserves (batch : List KGEntity) :
    ∀ (store : List KGEntity), (∀ e ∈ batch, e.id ∈ store.map KGEntity.id) →
      (create_knowledge_graph store batch).map KGEntity.id = store.map KGEntity.id ∧
      (create_knowledge_graph store batch).length = store.length := by
  induction batch with
  | nil => intro store _; exact ⟨rfl, rfl⟩
  | cons b t ih =>
    intro store h
    have hb := h b (List.mem_cons_self b t)
    have hm := mergeEntity_map_id_of_mem store b hb
    have hl := mergeEntity_length_of_mem store b hb
    rw [ckg_cons]
    have ht : ∀ e ∈ t, e.id ∈ (mergeEntity store b).map KGEntity.id := by
      intro e he
      rw [hm]
      exact h e (List.mem_cons_of_mem b he)
    obtain ⟨h1, h2⟩ := ih (mergeEntity store b) ht
    exact ⟨h1.trans hm, h2.trans hl⟩

/-- Claim C4, amended: the MERGE-by-key write of create_knowledge_graph
is idempotent on the entity count — submitting the same batch twice
leaves the store with the same number of entities as submitting it once
(the CREATE-based loaders of client.py are not idempotent, see the
counterexample). -/
theorem merge_batch_idempotent (store batch : List KGEntity) :
    (create_knowledge_graph (create_knowledge_graph store batch) batch).length =
      (create_knowledge_graph store batch).length :=
  (ckg_preserves batch _ (ckg_mem_ids batch store)).2

/-! ## Consistency checker and orchestration claims -/

/-- Claim C2: the missing set of a dependent pair contains exactly the
identifiers that occur in the key column of the dependent file and do not
occur in the key column of the related file, and no consistency report
blocks the load step. -/
theorem consistency_report_exact (rowsA rowsB : List (List String))
    (ka kb : Nat) (x : String) (specs : List (Nat × Nat × List Nat))
    (rowsOf : Nat → List (List String)) :
    (x ∈ missingIdentifiers rowsA rowsB ka kb ↔
      ((∃ r ∈ rowsA, r.get? ka = some x) ∧ ¬ ∃ r ∈ rowsB, r.get? kb = some x)) ∧
    consistencyBlocksLoad (checkConsistency specs rowsOf) = false := by
  constructor
  · simp [missingIdentifiers, identifierSet, Finset.mem_sdiff,
      List.mem_toFinset, List.mem_filterMap]
  · rfl

/-- A sequence accepted by stagesInOrder is a strictly increasing chain. -/
theorem chain_of_stagesInOrder :
    ∀ l : List Stage, stagesInOrder l = true →
      List.Chain' (fun s t => stageIndex s < stageIndex t) l
  | [], _ => List.chain'_nil
  | [s], _ => List.chain'_singleton s
  | s :: t :: r, h => by
    rw [stagesInOrder, Bool.and_eq_true] at h
    exact List.chain'_cons.mpr
      ⟨of_decide_eq_true h.1, chain_of_stagesInOrder (t :: r) h.2⟩

/-- Claim C9: for every selection of stage flags, main dispatches exactly
the selected stages, in the fixed order constraints, citations, sentences,
entities, predications, relationships; the dispatch sequence is strictly
increasing in that order, and the relationship stage, when selected, is
dispatched last — hence never while a preceding selected stage is
unfinished, the driving thread being sequential. -/
theorem pipeline_stage_order (a : Args) :
    List.Chain' (fun s t => stageIndex s < stageIndex t) (main_trace a) ∧
    main_trace a = ([Stage.constraints, Stage.citations, Stage.sentences,
      Stage.entities, Stage.predications, Stage.relationships].filter
        (fun s => run_all a || stageFlag a s)) ∧
    ((main_trace a).getLast? = some Stage.relationships ∨
      Stage.relationships ∉ main_trace a) := by
  have h : stagesInOrder (main_trace a) = true ∧
      main_trace a = ([Stage.constraints, Stage.citations, Stage.sentences,
        Stage.entities, Stage.predications, Stage.relationships].filter
          (fun s => run_all a || stageFlag a s)) ∧
      ((main_trace a).getLast? = some Stage.relationships ∨
        Stage.relationships ∉ main_trace a) := by
    obtain ⟨f1, f2, f3, f4, f5, f6, f7⟩ := a
    cases f1 <;> cases f2 <;> cases f3 <;> cases f4 <;> cases f5 <;> cases f6 <;>
      cases f7 <;> decide
  exact ⟨chain_of_stagesInOrder _ h.1, h.2.1, h.2.2⟩

/-! ## Identifier sanitization (claim C10) -/

/-- Every image of the word-character replacement map is a word
character. -/
theorem word_map_all (l : List Char) :
    (l.map (fun c => if isWordChar c then c else '_')).all isWordChar = true := by
  rw [List.all_eq_true]
  intro x hx
  rcases List.mem_map.mp hx with ⟨a, -, rfl⟩
  by_cases h : isWordChar a = true
  · rw [if_pos h]
    exact h
  · rw [if_neg h]
    decide

/-- Shape facts about the truncated identifier once its head is a letter
and all its characters are word characters. -/
theorem take_identifier_shape (d : Char) (t : List Char)
    (hd : pyIsAlphaAscii d = true) (ht : (d :: t).all isWordChar = true) :
    (String.mk ((d :: t).take 16383)).length ≤ 16383 ∧
    pyIsAlphaAscii ((String.mk ((d :: t).take 16383)).data.headD ' ') = true ∧
    (String.mk ((d :: t).take 16383)).data.all isWordChar = true := by
  refine ⟨?_, ?_, ?_⟩
  · show ((d :: t).take 16383).length ≤ 16383
    rw [List.length_take, inf_eq_min]
    omega
  · show pyIsAlphaAscii (((d :: t).take 16383).headD ' ') = true
    rw [show (16383 : Nat) = 16382 + 1 from rfl, List.take_succ_cons, List.headD_cons]
    exact hd
  · show ((d :: t).take 16383).all isWordChar = true
    rw [List.all_eq_true]
    intro x hx
    exact (List.all_eq_true.mp ht) x (List.take_subset _ _ hx)

/-- Claim C10: for every input string, sanitize_identifier returns either
the empty string or a string of at most 16383 characters that begins with
an ASCII letter and consists only of ASCII letters, digits and
underscores. -/
theorem identifier_always_valid (s : String) :
    sanitize_identifier s = "" ∨
      ((sanitize_identifier s).length ≤ 16383 ∧
        pyIsAlphaAscii ((sanitize_identifier s).data.headD ' ') = true ∧
        (sanitize_identifier s).data.all isWordChar = true) := by
  by_cases hs : s.isEmpty = true
  · left
    simp [sanitize_identifier, hs]
  · rcases hv : (s.data.filter isPrintableAscii).map
        (fun c => if isWordChar c then c else '_') with _ | ⟨c, rest⟩
    · left
      simp [sanitize_identifier, hs, hv]
    · have hall : (c :: rest).all isWordChar = true := by
        rw [← hv]
        exact word_map_all _
      right
      by_cases hc : pyIsAlphaAscii c = true
      · have he : sanitize_identifier s = String.mk ((c :: rest).take 16383) := by
          simp [sanitize_identifier, hs, hv, hc]
        rw [he]
        exact take_identifier_shape c rest hc hall
      · have he : sanitize_identifier s = String.mk (('n' :: c :: rest).take 16383) := by
          simp [sanitize_identifier, hs, hv, hc]
        rw [he]
        refine take_identifier_shape 'n' (c :: rest) (by decide) ?_
        rw [List.all_cons, Bool.and_eq_true]
        exact ⟨by decide, hall⟩

/-! ## Whitespace at the ends of cleaned fields (claim C7) -/

/-- The default-or-member dichotomy for headD. -/
theorem headD_mem_or (l : List Char) (d : Char) : l.headD d = d ∨ l.headD d ∈ l := by
  cases l <;> simp

/-- The default-or-member dichotomy for getLastD. -/
theorem getLastD_mem_or (l : List Char) (d : Char) :
    l.getLastD d = d ∨ l.getLastD d ∈ l := by
  rcases List.eq_nil_or_concat l with rfl | ⟨t, b, rfl⟩
  · simp
  · right
    rw [List.concat_eq_append, List.getLastD_concat]
    simp

/-- A list of non-whitespace characters has a non-whitespace headD. -/
theorem not_ws_headD {l : List Char} (h : ∀ c ∈ l, pyWhitespace c = false) :
    pyWhitespace (l.headD 'x') = false := by
  rcases headD_mem_or l 'x' with he | hm
  · rw [he]; decide
  · exact h _ hm

/-- A list of non-whitespace characters has a non-whitespace getLastD. -/
theorem not_ws_getLastD {l : List Char} (h : ∀ c ∈ l, pyWhitespace c = false) :
    pyWhitespace (l.getLastD 'x') = false := by
  rcases getLastD_mem_or l 'x' with he | hm
  · rw [he]; decide
  · exact h _ hm

/-- A list of non-whitespace characters has no whitespace at its ends. -/
theorem noWsEnds_of_forall {l : List Char}
    (h : ∀ c ∈ l, pyWhitespace c = false) : noWsEnds l = true := by
  unfold noWsEnds
  rw [Bool.and_eq_true, Bool.not_eq_true', Bool.not_eq_true']
  exact ⟨not_ws_headD h, not_ws_getLastD h⟩

/-- A digit is not whitespace. -/
theorem digit_not_ws {c : Char} (h : isAsciiDigit c = true) :
    pyWhitespace c = false := by
  simp only [pyWhitespace, decide_eq_false_iff_not]
  rintro (rfl | rfl | rfl | rfl | rfl | rfl) <;> exact absurd h (by decide)

/-- Every rendered digit character is a digit. -/
theorem pyDigitChar_digit (n : Nat) : isAsciiDigit (pyDigitChar n) = true := by
  match n with
  | 0 | 1 | 2 | 3 | 4 | 5 | 6 | 7 | 8 => decide
  | m + 9 => exact (by decide : isAsciiDigit '9' = true)

/-- The rendering loop only adds digit characters to the accumulator. -/
theorem natToDigitsAux_digits :
    ∀ (fuel n : Nat) (acc : List Char), acc.all isAsciiDigit = true →
      (natToDigitsAux fuel n acc).all isAsciiDigit = true
  | 0, _, _, h => h
  | fuel + 1, n, acc, h => by
    simp only [natToDigitsAux]
    split
    · rw [List.all_cons, Bool.and_eq_true]
      exact ⟨pyDigitChar_digit _, h⟩
    · exact natToDigitsAux_digits fuel _ _
        (by rw [List.all_cons, Bool.and_eq_true]; exact ⟨pyDigitChar_digit _, h⟩)

/-- A rendered natural number consists of digits only. -/
theorem natToDigits_digits (n : Nat) : (natToDigits n).all isAsciiDigit = true :=
  natToDigitsAux_digits (n + 1) n [] rfl

/-- A value passing the numeric test consists of digits, dots and
dashes. -/
theorem numericCheck_chars {l : List Char} (h : numericCheck l = true) :
    ∀ c ∈ l, isAsciiDigit c = true ∨ c = '.' ∨ c = '-' := by
  intro c hc
  by_cases h1 : c = '.'
  · exact Or.inr (Or.inl h1)
  by_cases h2 : c = '-'
  · exact Or.inr (Or.inr h2)
  left
  simp only [numericCheck, Bool.and_eq_true] at h
  obtain ⟨-, hall⟩ := h
  rw [List.all_eq_true] at hall
  apply hall
  rw [List.mem_filter]
  refine ⟨hc, ?_⟩
  simp [h1, h2]

/-- No character of a value passing the numeric test is whitespace. -/
theorem in_numeric_not_ws {l : List Char} (h : numericCheck l = true) :
    ∀ c ∈ l, pyWhitespace c = false := by
  intro c hc
  rcases numericCheck_chars h c hc with hd | rfl | rfl
  · exact digit_not_ws hd
  · decide
  · decide

/-- Membership in a conditional singleton pins the character down. -/
theorem mem_ite_singleton {P : Prop} [Decidable P] {c d : Char}
    (h : c ∈ (if P then [d] else [])) : c = d := by
  by_cases hp : P
  · rw [if_pos hp] at h
    simpa using h
  · rw [if_neg hp] at h
    exact absurd h (List.not_mem_nil c)

/-- Membership in a conditional between a singleton and a list. -/
theorem mem_ite_singleton_or {P : Prop} [Decidable P] {c d : Char}
    {l : List Char} (h : c ∈ (if P then [d] else l)) : c = d ∨ c ∈ l := by
  by_cases hp : P
  · rw [if_pos hp] at h
    left
    simpa using h
  · rw [if_neg hp] at h
    exact Or.inr h

/-- Membership in a conditional between a tail and the list itself. -/
theorem mem_ite_tail {P : Prop} [Decidable P] {c : Char} {l : List Char}
    (h : c ∈ (if P then l.tail else l)) : c ∈ l := by
  by_cases hp : P
  · rw [if_pos hp] at h
    exact (List.tail_sublist l).subset h
  · rwa [if_neg hp] at h

/-- The rendered integer form contains no whitespace. -/
theorem renderIntChars_not_ws {l : List Char}
    (_h : ∀ c ∈ l, pyWhitespace c = false) :
    ∀ c ∈ renderIntChars l, pyWhitespace c = false := by
  intro c hc
  simp only [renderIntChars, List.mem_append] at hc
  rcases hc with h1 | h2
  · rw [mem_ite_singleton h1]
    decide
  · exact digit_not_ws ((List.all_eq_true.mp (natToDigits_digits _)) c h2)

/-- The rendered decimal form contains no whitespace. -/
theorem renderFloatChars_not_ws {l : List Char}
    (h : ∀ c ∈ l, pyWhitespace c = false) :
    ∀ c ∈ renderFloatChars l, pyWhitespace c = false := by
  intro c hc
  simp only [renderFloatChars, List.mem_append] at hc
  rcases hc with ((h1 | h2) | h3) | h4
  · rw [mem_ite_singleton h1]
    decide
  · exact digit_not_ws ((List.all_eq_true.mp (natToDigits_digits _)) c h2)
  · have hc3 : c = '.' := by simpa using h3
    rw [hc3]; decide
  · rcases mem_ite_singleton_or h4 with rfl | hmem
    · decide
    · have hfp := (List.rdropWhile_prefix _ _).sublist.subset hmem
      have htl := (List.tail_sublist _).subset hfp
      have hbd := (List.dropWhile_sublist _).subset htl
      exact h c (mem_ite_tail hbd)

/-- The head of the suffix left by dropWhile is not whitespace. -/
theorem dropWhile_headD_not_ws (l : List Char) :
    pyWhitespace ((l.dropWhile pyWhitespace).headD 'x') = false := by
  induction l with
  | nil => decide
  | cons c t ih =>
    rw [List.dropWhile_cons]
    split
    · exact ih
    case isFalse h =>
      rw [List.headD_cons]
      simpa using h

/-- A stripped value does not start with whitespace. -/
theorem stripChars_headD_not_ws (l : List Char) :
    pyWhitespace ((stripChars l).headD 'x') = false := by
  unfold stripChars
  obtain ⟨t2, heq⟩ := List.rdropWhile_prefix pyWhitespace (l.dropWhile pyWhitespace)
  have hsrc := dropWhile_headD_not_ws l
  rw [← heq] at hsrc
  rcases hres : List.rdropWhile pyWhitespace (l.dropWhile pyWhitespace) with _ | ⟨c, t⟩
  · decide
  · rw [hres] at hsrc
    rw [List.headD_cons]
    rwa [List.cons_append, List.headD_cons] at hsrc

/-- A stripped value does not end with whitespace. -/
theorem stripChars_getLastD_not_ws (l : List Char) :
    pyWhitespace ((stripChars l).getLastD 'x') = false := by
  unfold stripChars
  by_cases hne : List.rdropWhile pyWhitespace (l.dropWhile pyWhitespace) = []
  · rw [hne]; decide
  · rw [List.getLastD_eq_getLast?, List.getLast?_eq_getLast _ hne, Option.getD_some]
    have hlast := List.rdropWhile_last_not pyWhitespace (l.dropWhile pyWhitespace) hne
    simpa using hlast

/-- A stripped value is a sublist of the original. -/
theorem stripChars_sublist (l : List Char) : (stripChars l).Sublist l := by
  unfold stripChars
  exact ((List.rdropWhile_prefix _ _).sublist).trans (List.dropWhile_sublist _)

/-- The last element of an append with a non-empty right part. -/
theorem getLastD_append_right (A B : List Char) (h : B ≠ []) (d : Char) :
    (A ++ B).getLastD d = B.getLastD d := by
  rw [List.getLastD_eq_getLast?, List.getLastD_eq_getLast?,
    List.getLast?_append_of_ne_nil A h]

/-- A per-character expansion with non-whitespace-headed images keeps the
head free of whitespace. -/
theorem expand_headD_not_ws (f : Char → List Char)
    (hne : ∀ c, f c ≠ [])
    (hf : ∀ c, pyWhitespace c = false → pyWhitespace ((f c).headD 'x') = false)
    (l : List Char) (hl : pyWhitespace (l.headD 'x') = false) :
    pyWhitespace (((l.map f).flatten).headD 'x') = false := by
  rcases l with _ | ⟨c, t⟩
  · rw [List.map_nil, List.flatten_nil]; decide
  · rw [List.map_cons, List.flatten_cons]
    rcases hfc : f c with _ | ⟨d, ds⟩
    · exact absurd hfc (hne c)
    · rw [List.cons_append, List.headD_cons]
      have hc := hf c (by rwa [List.headD_cons] at hl)
      rw [hfc, List.headD_cons] at hc
      exact hc

/-- A per-character expansion with non-whitespace-tailed images keeps the
last position free of whitespace. -/
theorem expand_getLastD_not_ws (f : Char → List Char)
    (hne : ∀ c, f c ≠ [])
    (hf : ∀ c, pyWhitespace c = false → pyWhitespace ((f c).getLastD 'x') = false)
    (l : List Char) (hl : pyWhitespace (l.getLastD 'x') = false) :
    pyWhitespace (((l.map f).flatten).getLastD 'x') = false := by
  rcases List.eq_nil_or_concat l with rfl | ⟨t, b, rfl⟩
  · rw [List.map_nil, List.flatten_nil]; decide
  · rw [List.concat_eq_append] at hl ⊢
    rw [List.map_append, List.flatten_append]
    have hb := hf b (by rwa [List.getLastD_concat] at hl)
    have hflat : ([b].map f).flatten = f b := by
      rw [List.map_cons, List.map_nil, List.flatten_cons, List.flatten_nil,
        List.append_nil]
    rw [hflat, getLastD_append_right _ _ (hne b)]
    exact hb

/-- Every character of an expansion comes from the image of a source
character. -/
theorem mem_expand {f : Char → List Char} {a : Char} {l : List Char}
    (h : a ∈ (l.map f).flatten) : ∃ c ∈ l, a ∈ f c := by
  rcases List.mem_flatten.mp h with ⟨x, hx, hax⟩
  rcases List.mem_map.mp hx with ⟨c, hc, rfl⟩
  exact ⟨c, hc, hax⟩

/-- Characters of the backslash-escaped value: the inserted backslash or a
source character. -/
theorem escapeBackslashes_chars {a : Char} {l : List Char}
    (h : a ∈ escapeBackslashes l) : a = '\\' ∨ a ∈ l := by
  rcases mem_expand h with ⟨c, hc, ha⟩
  by_cases hb : (c == '\\') = true
  · rw [if_pos hb] at ha
    left
    simpa using ha
  · rw [if_neg hb] at ha
    right
    have : a = c := by simpa using ha
    rw [this]; exact hc

/-- Characters of the quote-escaped value: an inserted backslash or quote,
or a source character. -/
theorem escapeQuotes_chars {a : Char} {l : List Char}
    (h : a ∈ escapeQuotes l) : a = '\\' ∨ a = '"' ∨ a ∈ l := by
  rcases mem_expand h with ⟨c, hc, ha⟩
  by_cases hb : (c == '"') = true
  · rw [if_pos hb] at ha
    rcases (by simpa using ha : a = '\\' ∨ a = '"') with h1 | h2
    · exact Or.inl h1
    · exact Or.inr (Or.inl h2)
  · rw [if_neg hb] at ha
    right; right
    have : a = c := by simpa using ha
    rw [this]; exact hc

/-- The image sets of the backslash escape are never empty. -/
theorem escB_image_ne (c : Char) :
    (if c == '\\' then ['\\', '\\'] else [c]) ≠ [] := by
  split <;> simp

/-- The backslash escape maps non-whitespace heads to non-whitespace
heads. -/
theorem escB_image_headD (c : Char) (h : pyWhitespace c = false) :
    pyWhitespace ((if c == '\\' then ['\\', '\\'] else [c]).headD 'x') = false := by
  split
  · decide
  · rwa [List.headD_cons]

/-- The backslash escape maps non-whitespace tails to non-whitespace
tails. -/
theorem escB_image_getLastD (c : Char) (h : pyWhitespace c = false) :
    pyWhitespace ((if c == '\\' then ['\\', '\\'] else [c]).getLastD 'x') = false := by
  split
  · decide
  · show pyWhitespace c = false
    exact h

/-- The image sets of the quote escape are never empty. -/
theorem escQ_image_ne (c : Char) :
    (if c == '"' then ['\\', '"'] else [c]) ≠ [] := by
  split <;> simp

/-- The quote escape maps non-whitespace heads to non-whitespace heads. -/
theorem escQ_image_headD (c : Char) (h : pyWhitespace c = false) :
    pyWhitespace ((if c == '"' then ['\\', '"'] else [c]).headD 'x') = false := by
  split
  · decide
  · rwa [List.headD_cons]

/-- The quote escape maps non-whitespace tails to non-whitespace tails. -/
theorem escQ_image_getLastD (c : Char) (h : pyWhitespace c = false) :
    pyWhitespace ((if c == '"' then ['\\', '"'] else [c]).getLastD 'x') = false := by
  split
  · decide
  · show pyWhitespace c = false
    exact h

/-- The non-numeric cleaning branch keeps whitespace away from both ends
of an all-printable value that starts and ends without whitespace. -/
theorem cleanStringBranch_noWsEnds {l : List Char}
    (hprint : ∀ c ∈ l, isPrintableAscii c = true)
    (hhead : pyWhitespace (l.headD 'x') = false)
    (hlast : pyWhitespace (l.getLastD 'x') = false) :
    noWsEnds (cleanStringBranch l) = true := by
  have hesc_print : ∀ a ∈ escapeQuotes (escapeBackslashes l),
      isPrintableAscii a = true := by
    intro a ha
    rcases escapeQuotes_chars ha with rfl | rfl | hmem
    · decide
    · decide
    · rcases escapeBackslashes_chars hmem with rfl | hl2
      · decide
      · exact hprint a hl2
  unfold cleanStringBranch
  rw [List.filter_eq_self.mpr hesc_print]
  unfold noWsEnds
  rw [Bool.and_eq_true, Bool.not_eq_true', Bool.not_eq_true']
  constructor
  · unfold escapeQuotes
    refine expand_headD_not_ws _ escQ_image_ne escQ_image_headD _ ?_
    unfold escapeBackslashes
    exact expand_headD_not_ws _ escB_image_ne escB_image_headD _ hhead
  · unfold escapeQuotes
    refine expand_getLastD_not_ws _ escQ_image_ne escQ_image_getLastD _ ?_
    unfold escapeBackslashes
    exact expand_getLastD_not_ws _ escB_image_ne escB_image_getLastD _ hlast

/-- Claim C7, counterexample: the field ` 1.2.3 ` looks numeric, fails
float conversion, and is returned raw by the error handler of
clean_field — with its surrounding whitespace intact, refuting the claim
that every output field is trimmed. -/
theorem untrimmed_field_output :
    clean_field " 1.2.3 " = " 1.2.3 " ∧
    noWsEnds (clean_field " 1.2.3 ").data = false := by decide

/-- Claim C7, amended: the output of clean_field has no leading and no
trailing whitespace for every field made of printable ASCII characters
whose numeric conversion does not fail (the error fallback returns the
raw field untrimmed, and deleting non-printable characters can expose
interior whitespace at the ends; the length bound keeps the exact decimal
model inside the range of CPython floats). -/
theorem sanitize_trims_fields (s : String)
    (hprint : s.data.all isPrintableAscii = true)
    (hok : (cleanFieldCore (stripChars s.data)).isOk = true)
    (_hsz : s.length ≤ 300) :
    noWsEnds (clean_field s).data = true := by
  by_cases hemp : (stripChars s.data).isEmpty = true
  · have hres : clean_field s = "" := by simp [clean_field, hemp]
    rw [hres]; decide
  · have hemp2 : (stripChars s.data).isEmpty = false := by
      rcases h : (stripChars s.data).isEmpty
      · rfl
      · exact absurd h hemp
    rcases hcv : cleanFieldCore (stripChars s.data) with u | v
    · rw [hcv] at hok
      exact absurd hok (by simp [Except.isOk, Except.toBool])
    · have hval : clean_field s = String.mk v := by
        simp [clean_field, hemp2, hcv]
      rw [hval]
      show noWsEnds v = true
      simp only [cleanFieldCore] at hcv
      by_cases hnum : numericCheck (stripChars s.data) = true
      · rw [if_pos hnum] at hcv
        by_cases hfl : floatParseOk (stripChars s.data) = true
        · rw [if_pos hfl] at hcv
          have hnw : ∀ c ∈ stripChars s.data, pyWhitespace c = false :=
            in_numeric_not_ws hnum
          by_cases hdot : (stripChars s.data).contains '.' = true
          · rw [if_pos hdot] at hcv
            injection hcv with hv
            rw [← hv]
            exact noWsEnds_of_forall (renderFloatChars_not_ws hnw)
          · rw [if_neg hdot] at hcv
            injection hcv with hv
            rw [← hv]
            exact noWsEnds_of_forall (renderIntChars_not_ws hnw)
        · rw [if_neg hfl] at hcv
          exact Except.noConfusion hcv
      · rw [if_neg hnum] at hcv
        injection hcv with hv
        rw [← hv]
        have hsub := stripChars_sublist s.data
        have hp : ∀ c ∈ stripChars s.data, isPrintableAscii c = true := by
          intro c hc
          exact (List.all_eq_true.mp hprint) c (hsub.subset hc)
        exact cleanStringBranch_noWsEnds hp (stripChars_headD_not_ws _)
          (stripChars_getLastD_not_ws _)

/-- Claim C7, witness: the amended statement at the concrete printable
field ` ab cd `, whose cleaning succeeds and whose output keeps the
interior space but no surrounding whitespace. -/
theorem sanitize_trims_fields_witness :
    (" ab cd ").data.all isPrintableAscii = true ∧
    (cleanFieldCore (stripChars (" ab cd ").data)).isOk = true ∧
    (" ab cd " : String).length ≤ 300 ∧
    noWsEnds (clean_field " ab cd ").data = true :=
  ⟨by decide, by decide, by decide,
    sanitize_trims_fields " ab cd " (by decide) (by decide) (by decide)⟩

end NeoExploration
